import Mathlib

/-!
Verification of the claim-to-order matching engine of `br_preprocess`
(`src/utils/map_to_fm.py`).

The Python functions are shallowly embedded as executable Lean definitions.
Strings are modelled as lists of Unicode code points (`List Nat`); the
character predicates (`str.isalnum`, `str.upper`, whitespace for `str.strip`)
are modelled on the ASCII range, which covers the character set the pipeline
operates on.  Python `datetime` values produced by `strptime` with pure date
formats are modelled as proleptic-Gregorian calendar dates; subtraction of two
midnight datetimes yields an exact whole-day difference, modelled via
`toOrdinal`.  `None` is modelled with `Option`, a pandas `NaN` cell with
`none`, and a raised-and-caught Python exception with `Except.error`.
Floating-point score arithmetic is exact here: every score is an integer and
the composite is a half-integer, both exactly representable in IEEE doubles,
so `ℚ` represents them faithfully.
-/

/-- Strings as lists of code points. -/
abbrev Str := List Nat

/-- Convert a Lean string literal to its code-point list (for concrete inputs). -/
def asStr (s : String) : Str := s.data.map Char.toNat

/-- Python `str.strip` whitespace (ASCII): space, \t, \n, \v, \f, \r. -/
def pyIsSpace (c : Nat) : Bool := decide (c = 32 ∨ (9 ≤ c ∧ c ≤ 13))

/-- Python `str.upper` on one code point (ASCII letters). -/
def pyUpper (c : Nat) : Nat := if 97 ≤ c ∧ c ≤ 122 then c - 32 else c

/-- Python `str.lower` on one code point (ASCII letters). -/
def pyLower (c : Nat) : Nat := if 65 ≤ c ∧ c ≤ 90 then c + 32 else c

/-- Python `str.isalnum` on one code point (ASCII digits and letters). -/
def pyIsAlnum (c : Nat) : Bool :=
  decide ((48 ≤ c ∧ c ≤ 57) ∨ (65 ≤ c ∧ c ≤ 90) ∨ (97 ≤ c ∧ c ≤ 122))

/-- Python `str.strip()`: drop leading and trailing whitespace. -/
def pyStrip (s : Str) : Str :=
  ((s.dropWhile pyIsSpace).reverse.dropWhile pyIsSpace).reverse

/--
`normalize_text` (map_to_fm.py lines 40-46):
```
if not text: return ""
text = text.strip().upper()
chars = [char for char in text if char.isalnum()]
return ''.join(sorted(chars))
```
`sorted` on a string sorts its characters by code point, which any sort of
the code-point list computes.
-/
def normalize_text (s : Str) : Str :=
  if s.isEmpty then []
  else List.insertionSort (· ≤ ·) (((pyStrip s).map pyUpper).filter pyIsAlnum)

/-! ### Calendar dates and `parse_date` -/

/-- A calendar date, the date part of the `datetime` objects produced by
`datetime.strptime` with the four pure-date formats used here (the time part
is always midnight). -/
structure Date where
  year : Nat
  month : Nat
  day : Nat
deriving DecidableEq

/-- Gregorian leap-year rule, as in Python's `calendar`/`datetime`. -/
def isLeap (y : Nat) : Bool := decide (y % 4 = 0 ∧ (y % 100 ≠ 0 ∨ y % 400 = 0))

/-- Number of days in a month. -/
def monthLen (y m : Nat) : Nat :=
  if m = 2 then (if isLeap y then 29 else 28)
  else if m = 4 ∨ m = 6 ∨ m = 9 ∨ m = 11 then 30
  else 31

/-- Days in the months of year `y` strictly before month `m`. -/
def daysBeforeMonth (y m : Nat) : Nat :=
  ((List.range' 1 (m - 1)).map (monthLen y)).sum

/-- Proleptic-Gregorian ordinal of a date, as in Python's
`datetime.toordinal()`: day 1 is January 1 of year 1. -/
def toOrdinal (d : Date) : Nat :=
  let y := d.year - 1
  365 * y + y / 4 + y / 400 - y / 100 + daysBeforeMonth d.year d.month + d.day

/-- `abs((json_dos - db_dos).days) <= 14` for two midnight datetimes: the
difference is an exact whole number of days. -/
def daysApartLe14 (a b : Date) : Bool :=
  decide (((toOrdinal a : Int) - (toOrdinal b : Int)).natAbs ≤ 14)

/-- Is the code point an ASCII digit? -/
def isDigitCp (c : Nat) : Bool := decide (48 ≤ c ∧ c ≤ 57)

/-- CPython `_strptime` directive `%Y`, compiled to the regex `\d\d\d\d`:
exactly four digits. Returns the year value and the remaining input. -/
def parseY4 : Str → Option (Nat × Str)
  | c1 :: c2 :: c3 :: c4 :: rest =>
    if isDigitCp c1 && isDigitCp c2 && isDigitCp c3 && isDigitCp c4 then
      some ((((c1 - 48) * 10 + (c2 - 48)) * 10 + (c3 - 48)) * 10 + (c4 - 48), rest)
    else none
  | _ => none

/-- CPython `_strptime` directive `%m`, the regex alternation
`1[0-2]|0[1-9]|[1-9]`: all ways it can match a prefix of the input, in the
regex engine's preference order (each as month value and remaining input). -/
def monthParses : Str → List (Nat × Str)
  | [] => []
  | [c] => if decide (49 ≤ c ∧ c ≤ 57) then [(c - 48, [])] else []
  | c1 :: c2 :: rest =>
    (if decide (c1 = 49 ∧ 48 ≤ c2 ∧ c2 ≤ 50) then [(10 + (c2 - 48), rest)] else [])
    ++ (if decide (c1 = 48 ∧ 49 ≤ c2 ∧ c2 ≤ 57) then [(c2 - 48, rest)] else [])
    ++ (if decide (49 ≤ c1 ∧ c1 ≤ 57) then [(c1 - 48, c2 :: rest)] else [])

/-- CPython `_strptime` directive `%d`, the regex alternation
`3[01]|[12]\d|0[1-9]|[1-9]`: all prefix matches in preference order. -/
def dayParses : Str → List (Nat × Str)
  | [] => []
  | [c] => if decide (49 ≤ c ∧ c ≤ 57) then [(c - 48, [])] else []
  | c1 :: c2 :: rest =>
    (if decide (c1 = 51 ∧ (c2 = 48 ∨ c2 = 49)) then [(30 + (c2 - 48), rest)] else [])
    ++ (if decide ((c1 = 49 ∨ c1 = 50) ∧ 48 ≤ c2 ∧ c2 ≤ 57) then
          [((c1 - 48) * 10 + (c2 - 48), rest)] else [])
    ++ (if decide (c1 = 48 ∧ 49 ≤ c2 ∧ c2 ≤ 57) then [(c2 - 48, rest)] else [])
    ++ (if decide (49 ≤ c1 ∧ c1 ≤ 57) then [(c1 - 48, c2 :: rest)] else [])

/-- Match one literal character (a format separator). -/
def expectChar (c : Nat) : Str → Option Str
  | d :: rest => if d = c then some rest else none
  | [] => none

/-- Regex match for format `%Y-%m-%d`, anchored and consuming the whole
input, with the engine's backtracking over the `%m`/`%d` alternations. -/
def matchYmdDash (s : Str) : Option (Nat × Nat × Nat) :=
  match parseY4 s with
  | none => none
  | some (y, r1) =>
    match expectChar 45 r1 with
    | none => none
    | some r2 =>
      (monthParses r2).findSome? fun mp =>
        match expectChar 45 mp.2 with
        | none => none
        | some r3 =>
          (dayParses r3).findSome? fun dp =>
            if dp.2 = [] then some (y, mp.1, dp.1) else none

/-- Regex match for `%m/%d/%Y` (`sep = '/'`, 47) and `%m-%d-%Y`
(`sep = '-'`, 45). -/
def matchMdySep (sep : Nat) (s : Str) : Option (Nat × Nat × Nat) :=
  (monthParses s).findSome? fun mp =>
    match expectChar sep mp.2 with
    | none => none
    | some r2 =>
      (dayParses r2).findSome? fun dp =>
        match expectChar sep dp.2 with
        | none => none
        | some r3 =>
          match parseY4 r3 with
          | some (y, []) => some (y, mp.1, dp.1)
          | _ => none

/-- Regex match for `%Y%m%d` (no separators, so `%m`/`%d` backtracking spans
the digit run after the year). -/
def matchYmdCompact (s : Str) : Option (Nat × Nat × Nat) :=
  match parseY4 s with
  | none => none
  | some (y, r1) =>
    (monthParses r1).findSome? fun mp =>
      (dayParses mp.2).findSome? fun dp =>
        if dp.2 = [] then some (y, mp.1, dp.1) else none

/-- `datetime(year, month, day)` validation: `MINYEAR ≤ y ≤ MAXYEAR`, a real
calendar day. An out-of-range day (e.g. Feb 30) makes `strptime` raise
`ValueError`, which `parse_date` catches before trying the next format. -/
def mkValidDate (y m d : Nat) : Option Date :=
  if decide (1 ≤ y ∧ y ≤ 9999 ∧ 1 ≤ m ∧ m ≤ 12 ∧ 1 ≤ d ∧ d ≤ monthLen y m) then
    some ⟨y, m, d⟩
  else none

/-- The four formats of `parse_date`, in source order:
`["%Y-%m-%d", "%m/%d/%Y", "%Y%m%d", "%m-%d-%Y"]`. -/
inductive DateFormat
  | ymdDash
  | mdySlash
  | ymdCompact
  | mdyDash
deriving DecidableEq

/-- `datetime.strptime(s, fmt)` for one format: `None` models a raised
`ValueError` (no regex match, or invalid calendar date). -/
def strptime (f : DateFormat) (s : Str) : Option Date :=
  let parsed :=
    match f with
    | .ymdDash => matchYmdDash s
    | .mdySlash => matchMdySep 47 s
    | .ymdCompact => matchYmdCompact s
    | .mdyDash => matchMdySep 45 s
  match parsed with
  | some (y, m, d) => mkValidDate y m d
  | none => none

/-- The `date_formats` list of `parse_date`. -/
def date_formats : List DateFormat := [.ymdDash, .mdySlash, .ymdCompact, .mdyDash]

/-- The `for fmt in date_formats: try ... except ValueError: continue` loop. -/
def tryFormats : List DateFormat → Str → Option Date
  | [], _ => none
  | f :: fs, s =>
    match strptime f s with
    | some d => some d
    | none => tryFormats fs s

/--
`parse_date` (map_to_fm.py lines 48-58):
```
if not date_str: return None
date_formats = ["%Y-%m-%d", "%m/%d/%Y", "%Y%m%d", "%m-%d-%Y"]
for fmt in date_formats:
    try: return datetime.strptime(date_str, fmt)
    except ValueError: continue
return None
```
-/
def parse_date (s : Str) : Option Date :=
  if s.isEmpty then none else tryFormats date_formats s

/-! ### String similarity: `fuzz.token_sort_ratio` and `fuzz.token_set_ratio`

fuzzywuzzy 0.18 with its pure-Python backend: both scorers run
`utils.full_process` (keep `[a-zA-Z0-9_]`, replace other characters with
spaces, lowercase, strip), manipulate whitespace-delimited tokens, and score
with `fuzz.ratio`, i.e. `difflib.SequenceMatcher` (no junk predicate;
autojunk applies only when the second string has at least 200 characters,
and then only removes "popular" characters from the index `b2j` --- the
`bjunk` set stays empty, so the junk-aware extension loops of
`find_longest_match` never fire). `int(round(100 * ratio))` is computed here
exactly on rationals with Python's round-half-to-even. -/

/-- Is the code point a regex word character (`[a-zA-Z0-9_]`)? -/
def wordChar (c : Nat) : Bool :=
  decide ((48 ≤ c ∧ c ≤ 57) ∨ (65 ≤ c ∧ c ≤ 90) ∨ (97 ≤ c ∧ c ≤ 122) ∨ c = 95)

/-- `utils.full_process(s, force_ascii=True)`: drop non-ASCII
(`asciidammit` is the identity on ASCII), replace each non-word character
with a space, lowercase, strip. -/
def full_process (s : Str) : Str :=
  pyStrip ((s.filter (fun c => decide (c ≤ 127))).map
    (fun c => if wordChar c then pyLower c else 32))

/-- Python `str.split()`: split on whitespace runs, no empty tokens. -/
def splitWs : Str → List Str
  | [] => []
  | c :: cs =>
    if pyIsSpace c then splitWs cs
    else
      match splitWs cs with
      | [] => [[c]]
      | t :: ts => if pyIsSpace (cs.headD 32) then [c] :: t :: ts else (c :: t) :: ts

/-- Lexicographic (code-point) order on strings, Python `<` on `str`. -/
def strLt : Str → Str → Bool
  | _, [] => false
  | [], _ :: _ => true
  | a :: as, b :: bs => if a < b then true else if b < a then false else strLt as bs

/-- `sorted(tokens)`: ascending lexicographic sort. -/
def sortTokens (ts : List Str) : List Str :=
  List.insertionSort (fun x y => strLt y x = false) ts

/-- `" ".join(tokens)`. -/
def joinSpace (ts : List Str) : Str := List.intercalate [32] ts

/-- difflib `b2j`-style index list: positions of `x` in `b`, ascending. -/
def indicesOf (b : Str) (x : Nat) : List Nat :=
  (List.range b.length).filter (fun j => b.getD j 0 == x)

/-- difflib autojunk: when `len(b) >= 200`, characters occurring more than
`len(b) // 100 + 1` times are dropped from `b2j` (but are not in `bjunk`). -/
def popularChars (b : Str) : List Nat :=
  if b.length < 200 then []
  else b.dedup.filter (fun x => decide (b.length / 100 + 1 < b.count x))

/-- The `b2j.get(a[i], [])` lookup of `find_longest_match`. -/
def b2jOf (b : Str) (x : Nat) : List Nat :=
  if x ∈ popularChars b then [] else indicesOf b x

/-- State of difflib's `find_longest_match`: `besti`, `bestj`, `bestsize`. -/
structure Flm where
  besti : Nat
  bestj : Nat
  bestsize : Nat
deriving DecidableEq

/-- Lookup in the `j2len` association list (`j2len.get(j-1, 0)`). -/
def alookup (l : List (Nat × Nat)) (k : Nat) : Nat :=
  match l.find? (fun p => p.1 == k) with
  | some p => p.2
  | none => 0

/-- Inner loop of `find_longest_match` over `b2j[a[i]]`: builds `newj2len`
and updates the best block. `j < blo` is `continue`; since the index list is
ascending, skipping `j ≥ bhi` is the `break`. `j2len.get(-1, 0)` is 0. -/
def flmStep (blo bhi i : Nat) (js : List Nat) (j2len : List (Nat × Nat)) (st : Flm) :
    List (Nat × Nat) × Flm :=
  js.foldl
    (fun acc j =>
      if j < blo || bhi ≤ j then acc
      else
        let k := (if j = 0 then 0 else alookup j2len (j - 1)) + 1
        ((j, k) :: acc.1,
         if acc.2.bestsize < k then ⟨i + 1 - k, j + 1 - k, k⟩ else acc.2))
    ([], st)

/-- Outer loop of `find_longest_match` over `i in range(alo, ahi)`. -/
def flmLoop (a b : Str) (blo bhi : Nat) : List Nat → List (Nat × Nat) → Flm → Flm
  | [], _, st => st
  | i :: is, j2len, st =>
    let step := flmStep blo bhi i (b2jOf b (a.getD i 0)) j2len st
    flmLoop a b blo bhi is step.1 step.2

/-- The first junk-free extension loop: grow the best block leftwards while
the preceding characters match (`bjunk` is empty, see above). -/
def extendLeft (a b : Str) (alo blo : Nat) : Nat → Flm → Flm
  | 0, st => st
  | fuel + 1, st =>
    if alo < st.besti && blo < st.bestj
        && (a.getD (st.besti - 1) 0 == b.getD (st.bestj - 1) 0) then
      extendLeft a b alo blo fuel ⟨st.besti - 1, st.bestj - 1, st.bestsize + 1⟩
    else st

/-- The second junk-free extension loop: grow the best block rightwards. -/
def extendRight (a b : Str) (ahi bhi : Nat) : Nat → Flm → Flm
  | 0, st => st
  | fuel + 1, st =>
    if st.besti + st.bestsize < ahi && st.bestj + st.bestsize < bhi
        && (a.getD (st.besti + st.bestsize) 0 == b.getD (st.bestj + st.bestsize) 0) then
      extendRight a b ahi bhi fuel ⟨st.besti, st.bestj, st.bestsize + 1⟩
    else st

/-- `SequenceMatcher.find_longest_match(alo, ahi, blo, bhi)`. -/
def find_longest_match (a b : Str) (alo ahi blo bhi : Nat) : Flm :=
  let st := flmLoop a b blo bhi (List.range' alo (ahi - alo)) [] ⟨alo, blo, 0⟩
  let st2 := extendLeft a b alo blo st.besti st
  extendRight a b ahi bhi (ahi - (st2.besti + st2.bestsize)) st2

/-- Total size of the matching blocks of `get_matching_blocks` inside a
window: the longest match, then recursion left and right of it (the
recursion's fuel strictly exceeds the window perimeter, so it never runs
out where the Python recursion proceeds). -/
def matchingTotal (a b : Str) : Nat → Nat → Nat → Nat → Nat → Nat
  | 0, _, _, _, _ => 0
  | fuel + 1, alo, ahi, blo, bhi =>
    let m := find_longest_match a b alo ahi blo bhi
    if m.bestsize = 0 then 0
    else
      m.bestsize
        + (if alo < m.besti ∧ blo < m.bestj then
            matchingTotal a b fuel alo m.besti blo m.bestj else 0)
        + (if m.besti + m.bestsize < ahi ∧ m.bestj + m.bestsize < bhi then
            matchingTotal a b fuel (m.besti + m.bestsize) ahi (m.bestj + m.bestsize) bhi
          else 0)

/-- `sum(block.size for block in SequenceMatcher(None, a, b).get_matching_blocks())`. -/
def seqMatchSum (a b : Str) : Nat :=
  matchingTotal a b (a.length + b.length + 1) 0 a.length 0 b.length

/-- `utils.intr(100 * (2.0 * M / T))`, i.e. `int(round(200*M/T))`, computed
exactly with Python 3's round-half-to-even. -/
def intrScore (M T : Nat) : Nat :=
  let num := 200 * M
  let q := num / T
  let r := num % T
  if 2 * r < T then q
  else if T < 2 * r then q + 1
  else if q % 2 = 0 then q else q + 1

/-- `fuzz.ratio(s1, s2)`: the `check_for_equal` decorator returns 100 on
equal inputs (the same value `SequenceMatcher` yields there, and the value
`_calculate_ratio` yields when both are empty); otherwise
`int(round(100 * SequenceMatcher(None, s1, s2).ratio()))`. -/
def simpleRatioScore (s1 s2 : Str) : Nat :=
  if s1 = s2 then 100
  else intrScore (seqMatchSum s1 s2) (s1.length + s2.length)

/-- `fuzz._process_and_sort(s, force_ascii=True, full_process=True)`:
full-process, split into tokens, sort them, join with spaces, strip. -/
def process_and_sort (s : Str) : Str :=
  pyStrip (joinSpace (sortTokens (splitWs (full_process s))))

/-- `fuzz.token_sort_ratio(s1, s2)` (defaults: `full_process=True`,
`force_ascii=True`, `partial=False`). -/
def tokenSortScore (s1 s2 : Str) : Nat :=
  simpleRatioScore (process_and_sort s1) (process_and_sort s2)

/-- `fuzz.token_set_ratio(s1, s2)` (defaults as above): token-set algebra on
the two processed strings, then the max of three pairwise ratios.
`utils.validate_string` rejects empty raw or processed inputs with score 0. -/
def tokenSetScore (s1 s2 : Str) : Nat :=
  if s1.isEmpty || s2.isEmpty then 0
  else
    let p1 := full_process s1
    let p2 := full_process s2
    if p1.isEmpty || p2.isEmpty then 0
    else
      let tokens1 := (splitWs p1).dedup
      let tokens2 := (splitWs p2).dedup
      let intersection := tokens1.filter (fun t => t ∈ tokens2)
      let diff1to2 := tokens1.filter (fun t => t ∉ tokens2)
      let diff2to1 := tokens2.filter (fun t => t ∉ tokens1)
      let sorted_sect := joinSpace (sortTokens intersection)
      let sorted_1to2 := joinSpace (sortTokens diff1to2)
      let sorted_2to1 := joinSpace (sortTokens diff2to1)
      let combined_1to2 := pyStrip (sorted_sect ++ [32] ++ sorted_1to2)
      let combined_2to1 := pyStrip (sorted_sect ++ [32] ++ sorted_2to1)
      let sect := pyStrip sorted_sect
      max (max (simpleRatioScore sect combined_1to2) (simpleRatioScore sect combined_2to1))
        (simpleRatioScore combined_1to2 combined_2to1)

/-- `composite_score = (token_sort_score + token_set_score) / 2` — a Python
float, but one holding an exact half-integer. -/
def composite_score_of (s1 s2 : Str) : ℚ :=
  ((tokenSortScore s1 s2 : ℚ) + (tokenSetScore s1 s2 : ℚ)) / 2

/-! ### Reference index: `load_orders_to_dataframe` and `get_cpts_for_order` -/

/-- One row of the line-items table (`line_items.parquet`): `Order_ID`, the
`DOS` date cell (`none` models a null/NaN cell; a present cell is read back
as the string `str(x)`), and the `CPT` code cell. -/
structure LineItem where
  order_id : Str
  dos : Option Str
  cpt : Option Str
deriving DecidableEq

/-- One row of the orders table (`orders.parquet`), with the columns the
loader selects. -/
structure OrderRawRow where
  order_id : Str
  filemaker_record_number : Str
  patient_last_name : Str
  patient_first_name : Str
  patientName : Str
deriving DecidableEq

/-- One row of the merged DataFrame `df_orders`. `dos_list = none` models the
`NaN` that the left merge leaves in `DOS_List` for an order with no
successfully parsed line-item date (the grouped lists are never empty, so
`NaN` is exactly the "no valid dates" case). -/
structure OrderRow where
  order_id : Str
  filemaker_record_number : Str
  patient_last_name : Str
  patient_first_name : Str
  patientName : Str
  dos_list : Option (List Date)
deriving DecidableEq

/-- The `DOS_List` built for one order (map_to_fm.py lines 76-88): parse each
line-item `DOS` (`parse_date(str(x)) if pd.notna(x) else None`), keep the
successful parses in row order, and leave `NaN` (`none`) when the order has
none. -/
def dosListFor (lis : List LineItem) (oid : Str) : Option (List Date) :=
  let parsed := (lis.filter (fun li => li.order_id == oid)).filterMap
    (fun li => li.dos.bind parse_date)
  if parsed.isEmpty then none else some parsed

/-- `load_orders_to_dataframe` (map_to_fm.py lines 60-98) restricted to its
pure content: group the valid line-item dates per order, left-merge onto the
orders table, select columns, and normalize the three name columns. -/
def load_orders_to_dataframe (orders : List OrderRawRow) (lis : List LineItem) :
    List OrderRow :=
  orders.map fun o =>
    { order_id := o.order_id
      filemaker_record_number := o.filemaker_record_number
      patient_last_name := normalize_text o.patient_last_name
      patient_first_name := normalize_text o.patient_first_name
      patientName := normalize_text o.patientName
      dos_list := dosListFor lis o.order_id }

/-- `get_cpts_for_order` (map_to_fm.py lines 100-103): the set of
`str(cpt).strip()` over the non-null `CPT` cells of the order's line items. -/
def get_cpts_for_order (oid : Str) (lis : List LineItem) : Finset Str :=
  (((lis.filter (fun li => li.order_id == oid)).filterMap (fun li => li.cpt)).map
    pyStrip).toFinset

/-! ### Claim-side data -/

/-- One entry of a claim's `service_lines`: `none` models an absent key or a
JSON null (`entry.get(k, "")` then yields the falsy default). -/
structure ServiceLine where
  date_of_service : Option Str
  cpt_code : Option Str
deriving DecidableEq

/-- The JSON claim document: `patient_info.patient_name` and `service_lines`. -/
structure ClaimData where
  patient_name : Option Str
  service_lines : List ServiceLine
deriving DecidableEq

/-- `json_name = normalize_text(json_data.get("patient_info", {}).get("patient_name", ""))`. -/
def json_name_of (c : ClaimData) : Str := normalize_text (c.patient_name.getD [])

/-- `dos_list` (map_to_fm.py lines 134-136):
```
[parse_date(entry.get("date_of_service", ""))
 for entry in json_data.get("service_lines", [])
 if entry.get("date_of_service", "")]
```
The filter keeps every line with a non-empty date string; the parse result
itself — `None` included — is kept in the list. -/
def dos_list_of (c : ClaimData) : List (Option Date) :=
  (c.service_lines.filter (fun e => !(e.date_of_service.getD []).isEmpty)).map
    (fun e => parse_date (e.date_of_service.getD []))

/-- `json_cpts` (map_to_fm.py lines 174-176): stripped `cpt_code` of every
service line whose `cpt_code` is truthy, as a set. -/
def json_cpts_of (c : ClaimData) : Finset Str :=
  ((c.service_lines.filter (fun l => !(l.cpt_code.getD []).isEmpty)).map
    (fun l => pyStrip (l.cpt_code.getD []))).toFinset

/-! ### Candidate generation (map_to_fm.py lines 144-167) -/

/-- The Python exceptions this pipeline can raise and catch. -/
inductive PyErr
  | typeError
  | nameError
deriving DecidableEq

/-- One entry of `candidate_matches`: the dict
`{'composite_score': ..., 'token_sort_score': ..., 'token_set_score': ..., 'row': row}`. -/
structure CandidateMatch where
  composite_score : ℚ
  token_sort_score : Nat
  token_set_score : Nat
  row : OrderRow
deriving DecidableEq

/-- The nested date loops (map_to_fm.py lines 155-167):
```
for json_dos in dos_list:
    for db_dos in db_dos_list:
        if db_dos and abs((json_dos - db_dos).days) <= 14:
            candidate_matches.append(...); break
    else: continue
    break
```
`db_dos` is always a truthy datetime (the loader kept only valid parses), so
when `json_dos` is `None` the first inner iteration evaluates
`None - datetime` and raises `TypeError`. Returns whether a pair within 14
days was found. The caller guarantees `dbl` is non-empty. -/
def datePairScan (dbl : List Date) : List (Option Date) → Except PyErr Bool
  | [] => .ok false
  | jd :: rest =>
    if dbl.isEmpty then datePairScan dbl rest
    else
      match jd with
      | none => .error .typeError
      | some d =>
        if dbl.any (fun db => daysApartLe14 d db) then .ok true
        else datePairScan dbl rest

/-- Scan of one `df_orders` row (map_to_fm.py lines 145-167). The source
tests `composite_score >= 90` where `composite_score` is exactly
`(token_sort_score + token_set_score)/2`; that float comparison holds iff
`180 ≤ token_sort_score + token_set_score`, which is the test written here.
When the test passes and `DOS_List` is the merge's `NaN` (`none`), Python's
`if not db_dos_list:` does not fire (`NaN` is truthy), and iterating over
the float raises `TypeError`. -/
def scanOrder (jn : Str) (dos : List (Option Date)) (row : OrderRow) :
    Except PyErr (Option CandidateMatch) :=
  let ts := tokenSortScore jn row.patientName
  let tse := tokenSetScore jn row.patientName
  if 180 ≤ ts + tse then
    match row.dos_list with
    | none => .error .typeError
    | some dbl =>
      if dbl.isEmpty then .ok none
      else
        match datePairScan dbl dos with
        | .error e => .error e
        | .ok true => .ok (some ⟨composite_score_of jn row.patientName, ts, tse, row⟩)
        | .ok false => .ok none
  else .ok none

/-- The full `for _, row in df_orders.iterrows()` loop building
`candidate_matches`; an uncaught exception aborts the loop. -/
def candidateScan (jn : Str) (dos : List (Option Date)) :
    List OrderRow → Except PyErr (List CandidateMatch)
  | [] => .ok []
  | row :: rest =>
    match scanOrder jn dos row with
    | .error e => .error e
    | .ok c? =>
      match candidateScan jn dos rest with
      | .error e => .error e
      | .ok cs => .ok (c?.toList ++ cs)

/-! ### Best-match selection (map_to_fm.py lines 169-186) -/

/-- `cpt_score`: size of the intersection of the claim's CPT set with the
order's CPT set. -/
def cpt_overlap (cl : ClaimData) (lis : List LineItem) (c : CandidateMatch) : Nat :=
  (json_cpts_of cl ∩ get_cpts_for_order c.row.order_id lis).card

/-- The sort key of an enriched candidate: `(cpt_score, composite_score)`. -/
def candKey (cl : ClaimData) (lis : List LineItem) (c : CandidateMatch) : Nat × ℚ :=
  (cpt_overlap cl lis c, c.composite_score)

/-- Python tuple `<=` on the sort keys. -/
def keyLE (a b : Nat × ℚ) : Prop := a.1 < b.1 ∨ (a.1 = b.1 ∧ a.2 ≤ b.2)

/-- Python tuple `<` on the sort keys. -/
def keyLT (a b : Nat × ℚ) : Prop := a.1 < b.1 ∨ (a.1 = b.1 ∧ a.2 < b.2)

instance (a b : Nat × ℚ) : Decidable (keyLE a b) := by
  unfold keyLE
  exact inferInstance

instance (a b : Nat × ℚ) : Decidable (keyLT a b) := by
  unfold keyLT
  exact inferInstance

/-- The comparison under which a stable insertion sort reproduces Python's
`list.sort(reverse=True, key=lambda x: (x[0], x[1]))`: `x` goes before `y`
iff `key(y) <= key(x)`, and on ties the earlier-scanned element stays first
(`list.sort` with `reverse=True` is stable and does not swap equal keys). -/
def enrichedGE (x y : Nat × ℚ × CandidateMatch) : Prop :=
  keyLE (y.1, y.2.1) (x.1, x.2.1)

instance (x y : Nat × ℚ × CandidateMatch) : Decidable (enrichedGE x y) := by
  unfold enrichedGE
  exact inferInstance

/-- `best_match` (map_to_fm.py lines 169-186): one candidate wins outright
(no CPT work); two or more are enriched with `(cpt_score, composite_score, match)`,
sorted descending by the first two components, and the head wins. -/
def select_best (cands : List CandidateMatch) (cl : ClaimData) (lis : List LineItem) :
    Option CandidateMatch :=
  if cands.length = 1 then cands.head?
  else if 1 < cands.length then
    let enriched := cands.map (fun m => (cpt_overlap cl lis m, m.composite_score, m))
    ((List.insertionSort enrichedGE enriched).head?).map (fun e => e.2.2)
  else none

/-! ### Per-file processing (map_to_fm.py lines 119-225) -/

/-- The externally visible steps taken for one JSON file inside the `try`
block (download and JSON parse are assumed to succeed; they are upstream of
the matching logic). -/
inductive FileStep
  | download
  | writeLocal
  | uploadMapped
  | moveToMapped
  | moveToUnmapped
  | removeLocal
deriving DecidableEq

/-- How the run classifies the file. -/
inductive Classification
  | matched (best : CandidateMatch)
  | unmatchedMissing
  | unmatchedNoMatch
  | interrupted
deriving DecidableEq

/-- Outcome of processing one file: the effects performed, whether
`processed_files` was incremented, the exception swallowed by the per-file
handler (if any), and the classification. -/
structure FileResult where
  effects : List FileStep
  counted : Bool
  exn : Option PyErr
  classification : Classification
deriving DecidableEq

/-- The body of the per-file loop of `process_matches` for one claim file.
After a successful match the code writes, uploads and moves the file and
then executes `results.append(...)` — but the name `results` is bound
nowhere in the module, so CPython raises `NameError` there; the per-file
`except` swallows it and `os.remove(local_json)` and
`processed_files += 1` are skipped. The missing-name/DOS branch and the
no-match branch `move` the file to the unmapped prefix; only the no-match
branch falls through to the cleanup. A `TypeError` escaping the candidate
scan reaches the handler before any move. -/
def process_one (orders : List OrderRow) (lis : List LineItem) (cl : ClaimData) :
    FileResult :=
  let json_name := json_name_of cl
  let dos := dos_list_of cl
  if json_name.isEmpty || dos.isEmpty then
    { effects := [.download, .moveToUnmapped], counted := false, exn := none
      classification := .unmatchedMissing }
  else
    match candidateScan json_name dos orders with
    | .error e =>
      { effects := [.download], counted := false, exn := some e
        classification := .interrupted }
    | .ok cands =>
      match select_best cands cl lis with
      | some best =>
        { effects := [.download, .writeLocal, .uploadMapped, .moveToMapped]
          counted := false, exn := some .nameError
          classification := .matched best }
      | none =>
        { effects := [.download, .moveToUnmapped, .removeLocal], counted := true
          exn := none, classification := .unmatchedNoMatch }

/-! ### Concrete scenario data for the claims -/

/-- Some claim date and some order date lie within 14 days of each other. -/
def pairWithin14 (dos : List (Option Date)) (dbl : List Date) : Prop :=
  ∃ jd ∈ dos, ∃ d, jd = some d ∧ ∃ db ∈ dbl, daysApartLe14 d db = true

/-- Concrete order row: "SMITH JOHN", one service date 2024-01-15. -/
def ex1Row : OrderRow :=
  { order_id := asStr ("O1"), filemaker_record_number := asStr ("FM1")
    patient_last_name := normalize_text (asStr ("SMITH"))
    patient_first_name := normalize_text (asStr ("JOHN"))
    patientName := normalize_text (asStr ("SMITH JOHN"))
    dos_list := some [⟨2024, 1, 15⟩] }

/-- Concrete normalized claim name "JOHN SMITH". -/
def ex1Jn : Str := normalize_text (asStr ("JOHN SMITH"))

/-- Concrete parsed claim dates: one date, 2024-01-10 (5 days from the
order's). -/
def ex1Dos : List (Option Date) := [some ⟨2024, 1, 10⟩]

/-- The candidate the scan emits for `ex1Row`. -/
def ex1Cand : CandidateMatch :=
  ⟨composite_score_of ex1Jn ex1Row.patientName,
   tokenSortScore ex1Jn ex1Row.patientName,
   tokenSetScore ex1Jn ex1Row.patientName, ex1Row⟩

/-- Claim with name "MARY LEE" and two service lines: an unparseable date
string and a good one. `parse_date` fails on the first, and the failed parse
is retained as `None` in `dos_list`. -/
def cx1Claim : ClaimData :=
  { patient_name := some (asStr ("MARY LEE"))
    service_lines :=
      [{ date_of_service := some (asStr ("99/99/9999")), cpt_code := none },
       { date_of_service := some (asStr ("2024-03-01")), cpt_code := none }] }

/-- Matching order for `cx1Claim`: same name letters, a date 4 days away. -/
def cx1Row : OrderRow :=
  { order_id := asStr ("O9"), filemaker_record_number := asStr ("FM9")
    patient_last_name := normalize_text (asStr ("LEE"))
    patient_first_name := normalize_text (asStr ("MARY"))
    patientName := normalize_text (asStr ("LEE MARY"))
    dos_list := some [⟨2024, 3, 5⟩] }

/-- Claim with procedure codes 11 and 22 (for the C2 scenario). -/
def cl2Ex : ClaimData :=
  { patient_name := some (asStr ("ANN BEE"))
    service_lines :=
      [{ date_of_service := some (asStr ("2024-01-10")), cpt_code := some (asStr ("11")) },
       { date_of_service := none, cpt_code := some (asStr ("22")) }] }

/-- Line items: order A shares one code with the claim, order B shares two. -/
def lis2Ex : List LineItem :=
  [{ order_id := asStr ("A"), dos := some (asStr ("2024-01-12")), cpt := some (asStr ("11")) },
   { order_id := asStr ("B"), dos := some (asStr ("2024-01-12")), cpt := some (asStr ("11")) },
   { order_id := asStr ("B"), dos := some (asStr ("2024-01-12")), cpt := some (asStr ("22")) }]

/-- Order row A. -/
def row2A : OrderRow :=
  { order_id := asStr ("A"), filemaker_record_number := asStr ("FMA")
    patient_last_name := [], patient_first_name := []
    patientName := normalize_text (asStr ("ANN BEE"))
    dos_list := some [⟨2024, 1, 12⟩] }

/-- Order row B. -/
def row2B : OrderRow :=
  { order_id := asStr ("B"), filemaker_record_number := asStr ("FMB")
    patient_last_name := [], patient_first_name := []
    patientName := normalize_text (asStr ("ANN BEE"))
    dos_list := some [⟨2024, 1, 12⟩] }

/-- Candidate for order A: composite 100, CPT overlap 1. -/
def cand2A : CandidateMatch := ⟨(100 : ℚ), 100, 100, row2A⟩

/-- Candidate for order B: composite 95 (lower), CPT overlap 2 (higher). -/
def cand2B : CandidateMatch := ⟨(95 : ℚ), 95, 95, row2B⟩

/-- Claim matching `ex1Row` (C6 scenario: exactly one candidate). -/
def cx6Claim : ClaimData :=
  { patient_name := some (asStr ("JOHN SMITH"))
    service_lines :=
      [{ date_of_service := some (asStr ("2024-01-10")), cpt_code := some (asStr ("99213")) }] }

/-- The single candidate of the C6 scenario. -/
def cx6Cand : CandidateMatch :=
  ⟨composite_score_of (json_name_of cx6Claim) ex1Row.patientName,
   tokenSortScore (json_name_of cx6Claim) ex1Row.patientName,
   tokenSetScore (json_name_of cx6Claim) ex1Row.patientName, ex1Row⟩

/-- Claim whose only service-line date is present but unparseable: no
successfully parsed date of service at all. -/
def cx3Claim : ClaimData :=
  { patient_name := some (asStr ("JANE"))
    service_lines := [{ date_of_service := some (asStr ("not-a-date")), cpt_code := none }] }

/-- An order whose name matches `cx3Claim` exactly, with valid dates. -/
def cx3Row : OrderRow :=
  { order_id := asStr ("O3"), filemaker_record_number := asStr ("FM3")
    patient_last_name := [], patient_first_name := []
    patientName := normalize_text (asStr ("JANE"))
    dos_list := some [⟨2024, 1, 10⟩] }

/-- Claim with one unparseable-but-present date (Feb 30 fails `datetime`
validation in every format) and one good date. -/
def cx4Claim : ClaimData :=
  { patient_name := some (asStr ("JOHN SMITH"))
    service_lines :=
      [{ date_of_service := some (asStr ("02/30/2024")), cpt_code := none },
       { date_of_service := some (asStr ("2024-01-10")), cpt_code := none }] }

/-- Orders-table row for the C5 scenario. -/
def cx5Raw : OrderRawRow :=
  { order_id := asStr ("O5"), filemaker_record_number := asStr ("FM5")
    patient_last_name := asStr ("SMITH"), patient_first_name := asStr ("JOHN")
    patientName := asStr ("SMITH JOHN") }

/-- Line items for the C5 scenario: order O5's only date cell is
unparseable, so O5 ends up with no valid dates (`DOS_List` is `NaN`). -/
def cx5Lis : List LineItem :=
  [{ order_id := asStr ("O5"), dos := some (asStr ("bad date")), cpt := some (asStr ("99213")) }]

/-- Claim whose name clears the threshold against O5. -/
def cx5Claim : ClaimData :=
  { patient_name := some (asStr ("JOHN SMITH"))
    service_lines := [{ date_of_service := some (asStr ("2024-01-10")), cpt_code := none }] }

/-! ## Theorems -/

/-! ### Lemmas about the normalizer (C8, C9) -/
theorem pyUpper_idem (c : Nat) : pyUpper (pyUpper c) = pyUpper c := by
  unfold pyUpper
  split_ifs with h1 h2 <;> omega

theorem pyIsAlnum_pyUpper (c : Nat) : pyIsAlnum (pyUpper c) = pyIsAlnum c := by
  unfold pyIsAlnum pyUpper
  split_ifs with h
  · simp only [decide_eq_decide]
    omega
  · rfl

theorem filter_alnum_map_upper (l : Str) :
    (l.map pyUpper).filter pyIsAlnum = (l.filter pyIsAlnum).map pyUpper := by
  rw [List.filter_map]
  congr 1
  apply List.filter_congr
  intro x _
  exact pyIsAlnum_pyUpper x

theorem space_not_alnum {c : Nat} (h : pyIsSpace c = true) : pyIsAlnum c = false := by
  unfold pyIsSpace at h
  unfold pyIsAlnum
  simp only [decide_eq_true_eq] at h
  simp only [decide_eq_false_iff_not]
  omega

theorem filter_alnum_dropWhile (l : Str) :
    (l.dropWhile pyIsSpace).filter pyIsAlnum = l.filter pyIsAlnum := by
  induction l with
  | nil => rfl
  | cons a t ih =>
    rw [List.dropWhile_cons]
    cases h : pyIsSpace a with
    | true => simp [ih, List.filter_cons, space_not_alnum h]
    | false => simp

theorem filter_alnum_pyStrip (l : Str) :
    (pyStrip l).filter pyIsAlnum = l.filter pyIsAlnum := by
  unfold pyStrip
  rw [List.filter_reverse, filter_alnum_dropWhile, List.filter_reverse,
    filter_alnum_dropWhile, List.reverse_reverse]

/-- `normalize_text` in canonical form: sort the upper-cased alphanumeric
characters of the raw input. -/
theorem normalize_eq_canon (s : Str) :
    normalize_text s = List.insertionSort (· ≤ ·) ((s.filter pyIsAlnum).map pyUpper) := by
  unfold normalize_text
  cases s with
  | nil => simp
  | cons a t =>
    simp only [List.isEmpty_cons, Bool.false_eq_true, if_false]
    rw [filter_alnum_map_upper, filter_alnum_pyStrip]

theorem map_eq_self_of_mem {f : Nat → Nat} {l : Str} (h : ∀ x ∈ l, f x = x) :
    l.map f = l := by
  induction l with
  | nil => rfl
  | cons a t ih =>
    simp only [List.map_cons, h a (List.mem_cons_self a t),
      ih (fun x hx => h x (List.mem_cons_of_mem a hx))]

/-- C8. Normalization is idempotent. -/
theorem claim_c8_normalize_idempotent (s : Str) :
    normalize_text (normalize_text s) = normalize_text s := by
  rw [normalize_eq_canon (normalize_text s)]
  have hmem : ∀ c ∈ normalize_text s, ∃ c0, pyIsAlnum c0 = true ∧ c = pyUpper c0 := by
    intro c hc
    rw [normalize_eq_canon] at hc
    have hc2 : c ∈ (s.filter pyIsAlnum).map pyUpper :=
      (List.perm_insertionSort _ _).mem_iff.mp hc
    obtain ⟨c0, hc0, rfl⟩ := List.mem_map.mp hc2
    exact ⟨c0, List.of_mem_filter hc0, rfl⟩
  have h1 : (normalize_text s).filter pyIsAlnum = normalize_text s := by
    apply List.filter_eq_self.mpr
    intro c hc
    obtain ⟨c0, ha, rfl⟩ := hmem c hc
    rw [pyIsAlnum_pyUpper]
    exact ha
  have h2 : (normalize_text s).map pyUpper = normalize_text s := by
    apply map_eq_self_of_mem
    intro c hc
    obtain ⟨c0, _, rfl⟩ := hmem c hc
    exact pyUpper_idem c0
  rw [h1, h2]
  apply List.Sorted.insertionSort_eq
  rw [normalize_eq_canon]
  exact List.sorted_insertionSort _ _

/-- C9. Normalization is an anagram-equivalence key: two inputs whose
alphanumeric characters form the same multiset after case folding
normalize identically. -/
theorem claim_c9_anagram_key (s t : Str)
    (h : ((s.filter pyIsAlnum).map pyUpper).Perm ((t.filter pyIsAlnum).map pyUpper)) :
    normalize_text s = normalize_text t := by
  rw [normalize_eq_canon, normalize_eq_canon]
  refine List.eq_of_perm_of_sorted ?_ (List.sorted_insertionSort _ _)
    (List.sorted_insertionSort _ _)
  exact (List.perm_insertionSort _ _).trans (h.trans (List.perm_insertionSort _ _).symm)

/-- C9 witness: "Jane Doe" and "DOE, jane" share a letter multiset, hence one
fingerprint. -/
theorem claim_c9_witness :
    (((asStr ("Jane Doe")).filter pyIsAlnum).map pyUpper).Perm
      (((asStr ("DOE, jane")).filter pyIsAlnum).map pyUpper) ∧
    normalize_text (asStr ("Jane Doe")) = normalize_text (asStr ("DOE, jane")) :=
  ⟨by decide, claim_c9_anagram_key (asStr ("Jane Doe")) (asStr ("DOE, jane")) (by decide)⟩

/-- C10. `parse_date` tries `%Y-%m-%d`, `%m/%d/%Y`, `%Y%m%d`, `%m-%d-%Y` in
exactly that order, returns the first format's successful parse, and returns
`none` (never an error) on empty input or when every format fails. -/
theorem claim_c10_parse_date_order (s : Str) :
    (s = [] → parse_date s = none)
    ∧ (∀ d, strptime .ymdDash s = some d → parse_date s = some d)
    ∧ (∀ d, strptime .ymdDash s = none → strptime .mdySlash s = some d →
        parse_date s = some d)
    ∧ (∀ d, strptime .ymdDash s = none → strptime .mdySlash s = none →
        strptime .ymdCompact s = some d → parse_date s = some d)
    ∧ (∀ d, strptime .ymdDash s = none → strptime .mdySlash s = none →
        strptime .ymdCompact s = none → strptime .mdyDash s = some d →
        parse_date s = some d)
    ∧ (strptime .ymdDash s = none → strptime .mdySlash s = none →
        strptime .ymdCompact s = none → strptime .mdyDash s = none →
        parse_date s = none) := by
  refine ⟨?_, ?_, ?_, ?_, ?_, ?_⟩
  · intro h
    rw [h]
    rfl
  · intro d h1
    cases s with
    | nil => simp [strptime, matchYmdDash, parseY4] at h1
    | cons a t => simp [parse_date, tryFormats, date_formats, h1]
  · intro d h1 h2
    cases s with
    | nil => simp [strptime, matchMdySep, monthParses] at h2
    | cons a t => simp [parse_date, tryFormats, date_formats, h1, h2]
  · intro d h1 h2 h3
    cases s with
    | nil => simp [strptime, matchYmdCompact, parseY4] at h3
    | cons a t => simp [parse_date, tryFormats, date_formats, h1, h2, h3]
  · intro d h1 h2 h3 h4
    cases s with
    | nil => simp [strptime, matchMdySep, monthParses] at h4
    | cons a t => simp [parse_date, tryFormats, date_formats, h1, h2, h3, h4]
  · intro h1 h2 h3 h4
    cases s with
    | nil => rfl
    | cons a t => simp [parse_date, tryFormats, date_formats, h1, h2, h3, h4]

/-- C10 witness: "01-10-2024" is rejected by the first three formats and
parsed by `%m-%d-%Y`; and a concrete run on each clause. -/
theorem claim_c10_witness :
    parse_date (asStr ("01-10-2024")) = some ⟨2024, 1, 10⟩ :=
  (claim_c10_parse_date_order (asStr ("01-10-2024"))).2.2.2.2.1 ⟨2024, 1, 10⟩
    (by decide) (by decide) (by decide) (by decide)

theorem pairWithin14_cons {jd : Option Date} {rest : List (Option Date)} {dbl : List Date} :
    pairWithin14 (jd :: rest) dbl ↔
      (∃ d, jd = some d ∧ ∃ db ∈ dbl, daysApartLe14 d db = true) ∨ pairWithin14 rest dbl := by
  unfold pairWithin14
  rw [List.exists_mem_cons_iff]

theorem datePairScan_ok {dbl : List Date} (hne : dbl ≠ []) :
    ∀ {dos : List (Option Date)} {b : Bool}, datePairScan dbl dos = .ok b →
      (b = true ↔ pairWithin14 dos dbl) := by
  have hie : dbl.isEmpty = false := by
    cases dbl with
    | nil => exact absurd rfl hne
    | cons a t => rfl
  intro dos
  induction dos with
  | nil =>
    intro b h
    simp only [datePairScan, Except.ok.injEq] at h
    subst h
    simp [pairWithin14]
  | cons jd rest ih =>
    intro b h
    cases jd with
    | none =>
      simp only [datePairScan, hie, Bool.false_eq_true, if_false] at h
      exact absurd h (by simp)
    | some d =>
      simp only [datePairScan, hie, Bool.false_eq_true, if_false] at h
      rw [pairWithin14_cons]
      by_cases hany : (dbl.any fun db => daysApartLe14 d db) = true
      · rw [if_pos hany] at h
        cases h
        simp only [true_iff]
        exact Or.inl ⟨d, rfl, List.any_eq_true.mp hany⟩
      · rw [if_neg hany] at h
        rw [ih h]
        constructor
        · exact Or.inr
        · rintro (⟨d2, hd2, hdb⟩ | hp)
          · cases hd2
            exact absurd (List.any_eq_true.mpr hdb) hany
          · exact hp

theorem scanOrder_chr {jn : Str} {dos : List (Option Date)} {row : OrderRow}
    {dbl : List Date} (hd : row.dos_list = some dbl) (hne : dbl ≠ [])
    {c? : Option CandidateMatch} (h : scanOrder jn dos row = .ok c?) :
    (c? = some ⟨composite_score_of jn row.patientName,
        tokenSortScore jn row.patientName, tokenSetScore jn row.patientName, row⟩
      ∧ 180 ≤ tokenSortScore jn row.patientName + tokenSetScore jn row.patientName
      ∧ pairWithin14 dos dbl)
    ∨ (c? = none
      ∧ (¬ 180 ≤ tokenSortScore jn row.patientName + tokenSetScore jn row.patientName
        ∨ ¬ pairWithin14 dos dbl)) := by
  have hie : dbl.isEmpty = false := by
    cases dbl with
    | nil => exact absurd rfl hne
    | cons a t => rfl
  simp only [scanOrder, hd] at h
  by_cases hth : 180 ≤ tokenSortScore jn row.patientName + tokenSetScore jn row.patientName
  · rw [if_pos hth, hie] at h
    simp only [Bool.false_eq_true, if_false] at h
    cases hscan : datePairScan dbl dos with
    | error e => rw [hscan] at h; exact absurd h (by simp)
    | ok b =>
      rw [hscan] at h
      cases b with
      | true =>
        cases h
        exact Or.inl ⟨rfl, hth, (datePairScan_ok hne hscan).mp rfl⟩
      | false =>
        cases h
        refine Or.inr ⟨rfl, Or.inr ?_⟩
        intro hp
        exact absurd ((datePairScan_ok hne hscan).mpr hp) (by simp)
  · rw [if_neg hth] at h
    cases h
    exact Or.inr ⟨rfl, Or.inl hth⟩

theorem scanOrder_some_row {jn : Str} {dos : List (Option Date)} {row : OrderRow}
    {c : CandidateMatch} (h : scanOrder jn dos row = .ok (some c)) :
    c.row = row ∧ c.composite_score = composite_score_of jn row.patientName := by
  simp only [scanOrder] at h
  split at h
  · split at h
    · exact absurd h (by simp)
    · split at h
      · exact absurd h (by simp)
      · split at h
        · exact absurd h (by simp)
        · cases h
          exact ⟨rfl, rfl⟩
        · exact absurd h (by simp)
  · exact absurd h (by simp)

theorem candidateScan_mem {jn : Str} {dos : List (Option Date)} :
    ∀ {rows : List OrderRow} {cands : List CandidateMatch},
      candidateScan jn dos rows = .ok cands →
      ∀ c ∈ cands, ∃ row ∈ rows, scanOrder jn dos row = .ok (some c) := by
  intro rows
  induction rows with
  | nil =>
    intro cands h c hc
    cases h
    exact absurd hc (by simp)
  | cons row rest ih =>
    intro cands h c hc
    rw [candidateScan] at h
    cases hs : scanOrder jn dos row with
    | error e => rw [hs] at h; exact absurd h (by simp)
    | ok c1? =>
      rw [hs] at h
      cases hr : candidateScan jn dos rest with
      | error e => rw [hr] at h; exact absurd h (by simp)
      | ok cs =>
        rw [hr] at h
        cases h
        rcases List.mem_append.mp hc with hmem | hmem
        · cases c1? with
          | none => exact absurd hmem (by simp)
          | some c1 =>
            obtain rfl : c = c1 := by simpa using hmem
            exact ⟨row, List.mem_cons_self row rest, hs⟩
        · obtain ⟨row2, hrow2, hscan2⟩ := ih hr c hmem
          exact ⟨row2, List.mem_cons_of_mem row hrow2, hscan2⟩

theorem candidateScan_row_ok {jn : Str} {dos : List (Option Date)} :
    ∀ {rows : List OrderRow} {cands : List CandidateMatch},
      candidateScan jn dos rows = .ok cands →
      ∀ row ∈ rows, ∃ c?, scanOrder jn dos row = .ok c? ∧ ∀ c, c? = some c → c ∈ cands := by
  intro rows
  induction rows with
  | nil =>
    intro cands _ row hrow
    exact absurd hrow (by simp)
  | cons row1 rest ih =>
    intro cands h row hrow
    rw [candidateScan] at h
    cases hs : scanOrder jn dos row1 with
    | error e => rw [hs] at h; exact absurd h (by simp)
    | ok c1? =>
      rw [hs] at h
      cases hr : candidateScan jn dos rest with
      | error e => rw [hr] at h; exact absurd h (by simp)
      | ok cs =>
        rw [hr] at h
        cases h
        rcases List.mem_cons.mp hrow with rfl | hmem
        · refine ⟨c1?, hs, ?_⟩
          intro c hc
          subst hc
          exact List.mem_append.mpr (Or.inl (by simp))
        · obtain ⟨c?, hscan2, hmem2⟩ := ih hr row hmem
          exact ⟨c?, hscan2, fun c hc => List.mem_append.mpr (Or.inr (hmem2 c hc))⟩

theorem candidateScan_countP {jn : Str} {dos : List (Option Date)} :
    ∀ {rows : List OrderRow} {cands : List CandidateMatch},
      candidateScan jn dos rows = .ok cands →
      ∀ q : OrderRow → Bool, cands.countP (fun c => q c.row) ≤ rows.countP q := by
  intro rows
  induction rows with
  | nil =>
    intro cands h q
    cases h
    simp
  | cons row rest ih =>
    intro cands h q
    rw [candidateScan] at h
    cases hs : scanOrder jn dos row with
    | error e => rw [hs] at h; exact absurd h (by simp)
    | ok c1? =>
      rw [hs] at h
      cases hr : candidateScan jn dos rest with
      | error e => rw [hr] at h; exact absurd h (by simp)
      | ok cs =>
        rw [hr] at h
        cases h
        rw [List.countP_append, List.countP_cons]
        have htail := ih hr q
        cases c1? with
        | none => simpa using Nat.le_add_right_of_le htail
        | some c1 =>
          have hcr : c1.row = row := (scanOrder_some_row hs).1
          simp only [Option.toList_some, List.countP_cons, List.countP_nil, hcr]
          omega

/-- Half-integer arithmetic: `composite_score >= 90` iff the two integer
scores sum to at least 180. -/
theorem composite_ge_90_iff (s1 s2 : Str) :
    90 ≤ composite_score_of s1 s2 ↔
      180 ≤ tokenSortScore s1 s2 + tokenSetScore s1 s2 := by
  unfold composite_score_of
  rw [le_div_iff₀ (by norm_num : (0 : ℚ) < 2)]
  constructor
  · intro h
    have h2 : (180 : ℚ) ≤ (tokenSortScore s1 s2 : ℚ) + (tokenSetScore s1 s2 : ℚ) := by
      linarith
    exact_mod_cast h2
  · intro h
    have h2 : (180 : ℚ) ≤ (tokenSortScore s1 s2 : ℚ) + (tokenSetScore s1 s2 : ℚ) := by
      exact_mod_cast h
    linarith

/-! ### C1: candidate generation -/

/-- C1 (amended): the iff holds on every scan that completes without a
processing fault. An unparseable-but-present claim date retained as `None`
in `dos_list`, or a `NaN` `DOS_List` on an order at or above the threshold,
makes the scan raise `TypeError` instead (see the counterexample). -/
theorem claim_c1_candidate_generation (jn : Str) (dos : List (Option Date))
    (rows : List OrderRow) (cands : List CandidateMatch) (row : OrderRow)
    (dbl : List Date) (hjn : jn ≠ [])
    (hdos : ∃ jd ∈ dos, ∃ d : Date, jd = some d)
    (hok : candidateScan jn dos rows = .ok cands)
    (hr : row ∈ rows) (hdbl : row.dos_list = some dbl) (hne : dbl ≠ []) :
    ((∃ c ∈ cands, c.row = row) ↔
      (90 ≤ composite_score_of jn row.patientName ∧ pairWithin14 dos dbl))
    ∧ (∀ c ∈ cands, c.row = row →
        c.composite_score = composite_score_of jn row.patientName)
    ∧ (∀ q : OrderRow → Bool, cands.countP (fun c => q c.row) ≤ rows.countP q) := by
  refine ⟨⟨?_, ?_⟩, ?_, ?_⟩
  · rintro ⟨c, hc, hcrow⟩
    obtain ⟨row2, _, hscan⟩ := candidateScan_mem hok c hc
    obtain ⟨hcrow2, _⟩ := scanOrder_some_row hscan
    have hrr : row2 = row := by rw [← hcrow2, hcrow]
    subst hrr
    rcases scanOrder_chr hdbl hne hscan with ⟨_, hth, hp⟩ | ⟨hnone, _⟩
    · exact ⟨(composite_ge_90_iff _ _).mpr hth, hp⟩
    · exact absurd hnone (by simp)
  · rintro ⟨hcomp, hp⟩
    obtain ⟨c?, hscan, hmem⟩ := candidateScan_row_ok hok row hr
    rcases scanOrder_chr hdbl hne hscan with ⟨hsome, _, _⟩ | ⟨_, hbad⟩
    · exact ⟨_, hmem _ hsome, rfl⟩
    · rcases hbad with hb | hb
      · exact absurd ((composite_ge_90_iff _ _).mp hcomp) hb
      · exact absurd hp hb
  · intro c hc hcrow
    obtain ⟨row2, _, hscan⟩ := candidateScan_mem hok c hc
    obtain ⟨hcrow2, hcomp2⟩ := scanOrder_some_row hscan
    have hrr : row2 = row := by rw [← hcrow2, hcrow]
    rw [hcomp2, hrr]
  · exact candidateScan_countP hok

/-- C1 witness: a concrete fault-free scan on which the amended claim's
hypotheses all hold. -/
theorem claim_c1_witness :
    ex1Jn ≠ []
    ∧ (∃ jd ∈ ex1Dos, ∃ d : Date, jd = some d)
    ∧ candidateScan ex1Jn ex1Dos [ex1Row] = .ok [ex1Cand]
    ∧ ex1Row ∈ [ex1Row]
    ∧ ex1Row.dos_list = some [⟨2024, 1, 15⟩]
    ∧ (((∃ c ∈ [ex1Cand], c.row = ex1Row) ↔
          (90 ≤ composite_score_of ex1Jn ex1Row.patientName
            ∧ pairWithin14 ex1Dos [⟨2024, 1, 15⟩]))
        ∧ (∀ c ∈ [ex1Cand], c.row = ex1Row →
            c.composite_score = composite_score_of ex1Jn ex1Row.patientName)
        ∧ (∀ q : OrderRow → Bool,
            ([ex1Cand].countP (fun c => q c.row)) ≤ ([ex1Row].countP q))) :=
  ⟨by decide, ⟨some ⟨2024, 1, 10⟩, by decide, ⟨2024, 1, 10⟩, rfl⟩, by rfl, by decide, by rfl,
   claim_c1_candidate_generation ex1Jn ex1Dos [ex1Row] [ex1Cand] ex1Row [⟨2024, 1, 15⟩]
     (by decide) ⟨some ⟨2024, 1, 10⟩, by decide, ⟨2024, 1, 10⟩, rfl⟩ (by rfl) (by decide)
     (by rfl) (by decide)⟩

/-- C1 counterexample: every condition of the claim as stated holds —
non-empty normalized name, a successfully parsed claim date, a non-empty
order date list, composite 100 ≥ 90, a pair 4 days apart — yet the
generator emits nothing: the retained `None` parse reaches
`None - datetime` and the scan raises `TypeError`. -/
theorem claim_c1_counterexample :
    (json_name_of cx1Claim).isEmpty = false
    ∧ (∃ jd ∈ dos_list_of cx1Claim, ∃ d : Date, jd = some d)
    ∧ cx1Row.dos_list = some [⟨2024, 3, 5⟩]
    ∧ 90 ≤ composite_score_of (json_name_of cx1Claim) cx1Row.patientName
    ∧ pairWithin14 (dos_list_of cx1Claim) [⟨2024, 3, 5⟩]
    ∧ candidateScan (json_name_of cx1Claim) (dos_list_of cx1Claim) [cx1Row]
        = .error .typeError :=
  ⟨by decide,
   ⟨some ⟨2024, 3, 1⟩, by decide, ⟨2024, 3, 1⟩, rfl⟩,
   by rfl,
   (composite_ge_90_iff _ _).mpr (by decide),
   ⟨some ⟨2024, 3, 1⟩, by decide, ⟨2024, 3, 1⟩, rfl, ⟨2024, 3, 5⟩, by decide, by decide⟩,
   by rfl⟩

/-! ### C2: tie-break selection -/
theorem keyLE_refl (a : Nat × ℚ) : keyLE a a := Or.inr ⟨rfl, le_refl _⟩

theorem keyLE_trans {a b c : Nat × ℚ} (h1 : keyLE a b) (h2 : keyLE b c) : keyLE a c := by
  rcases h1 with h1 | ⟨e1, l1⟩ <;> rcases h2 with h2 | ⟨e2, l2⟩
  · exact Or.inl (h1.trans h2)
  · exact Or.inl (e2 ▸ h1)
  · exact Or.inl (e1 ▸ h2)
  · exact Or.inr ⟨e1.trans e2, l1.trans l2⟩

theorem keyLT_of_not_keyLE {a b : Nat × ℚ} (h : ¬ keyLE a b) : keyLT b a := by
  unfold keyLE at h
  unfold keyLT
  push_neg at h
  obtain ⟨h1, h2⟩ := h
  rcases Nat.lt_or_ge b.1 a.1 with hl | hg
  · exact Or.inl hl
  · have he : a.1 = b.1 := Nat.le_antisymm hg h1
    exact Or.inr ⟨he.symm, h2 he⟩

theorem keyLE_of_keyLT {a b : Nat × ℚ} (h : keyLT a b) : keyLE a b := by
  rcases h with h | ⟨e, l⟩
  · exact Or.inl h
  · exact Or.inr ⟨e, le_of_lt l⟩

/-- Head of the stable descending insertion sort: it is the first element of
the input whose key is maximal. -/
theorem insertionSort_desc_head :
    ∀ l : List (Nat × ℚ × CandidateMatch), l ≠ [] →
    ∃ w i, ∃ hi : i < l.length,
      (List.insertionSort enrichedGE l).head? = some w
      ∧ l.get ⟨i, hi⟩ = w
      ∧ (∀ e ∈ l, keyLE (e.1, e.2.1) (w.1, w.2.1))
      ∧ (∀ j, ∀ hj : j < l.length, j < i →
          keyLT ((l.get ⟨j, hj⟩).1, (l.get ⟨j, hj⟩).2.1) (w.1, w.2.1)) := by
  intro l
  induction l with
  | nil => intro h; exact absurd rfl h
  | cons x xs ih =>
    intro _
    cases hxs : xs with
    | nil =>
      refine ⟨x, 0, by simp, by simp [List.insertionSort], rfl, ?_, ?_⟩
      · intro e he
        obtain rfl : e = x := by simpa using he
        exact keyLE_refl _
      · intro j hj hj0
        omega
    | cons y ys =>
      have hne2 : xs ≠ [] := by rw [hxs]; exact List.cons_ne_nil y ys
      rw [← hxs]
      obtain ⟨w2, i2, hi2, hhead2, hget2, hmax2, hfirst2⟩ := ih hne2
      have hsort : List.insertionSort enrichedGE (x :: xs)
          = List.orderedInsert enrichedGE x (List.insertionSort enrichedGE xs) := by
        simp [List.insertionSort]
      cases hs : List.insertionSort enrichedGE xs with
      | nil =>
        rw [hs] at hhead2
        exact absurd hhead2 (by simp)
      | cons h0 t0 =>
        have hw2 : h0 = w2 := by
          rw [hs] at hhead2
          simpa using hhead2
        subst hw2
        by_cases hge : enrichedGE x h0
        · refine ⟨x, 0, by simp, ?_, rfl, ?_, ?_⟩
          · rw [hsort, hs, List.orderedInsert_of_le _ _ hge]
            rfl
          · intro e he
            rcases List.mem_cons.mp he with rfl | he2
            · exact keyLE_refl _
            · exact keyLE_trans (hmax2 e he2) hge
          · intro j hj hj0
            omega
        · refine ⟨h0, i2 + 1, by simpa using Nat.succ_lt_succ hi2, ?_, by simpa using hget2,
            ?_, ?_⟩
          · rw [hsort, hs]
            simp only [List.orderedInsert]
            rw [if_neg hge]
            rfl
          · intro e he
            rcases List.mem_cons.mp he with rfl | he2
            · exact keyLE_of_keyLT (keyLT_of_not_keyLE hge)
            · exact hmax2 e he2
          · intro j hj hj0
            cases j with
            | zero => exact keyLT_of_not_keyLE hge
            | succ j0 =>
              have hj0lt : j0 < i2 := by omega
              have hjxs : j0 < xs.length := by
                simp at hj
                omega
              have := hfirst2 j0 hjxs hj0lt
              simpa using this

/-- C2. With two or more candidates, the winner is the first candidate whose
key `(cpt_overlap_count, name_similarity_score)` is maximal in the Python
tuple order: every candidate's key is `≤` the winner's, and every candidate
scanned earlier has a strictly smaller key. In particular a strictly greater
CPT overlap wins regardless of composite score, exact ties go to the
first-encountered candidate, and the outcome is a function of its inputs,
hence deterministic. -/
theorem claim_c2_tie_break (cands : List CandidateMatch) (cl : ClaimData)
    (lis : List LineItem) (h2 : 1 < cands.length) :
    ∃ w, select_best cands cl lis = some w
      ∧ ∃ i, ∃ hi : i < cands.length, cands.get ⟨i, hi⟩ = w
        ∧ (∀ c ∈ cands, keyLE (candKey cl lis c) (candKey cl lis w))
        ∧ (∀ j, ∀ hj : j < cands.length, j < i →
            keyLT (candKey cl lis (cands.get ⟨j, hj⟩)) (candKey cl lis w)) := by
  have hne : cands ≠ [] := by
    intro h
    rw [h] at h2
    simp at h2
  have hEne : cands.map (fun m => (cpt_overlap cl lis m, m.composite_score, m)) ≠ [] := by
    simpa using hne
  obtain ⟨we, i, hi, hhead, hget, hmax, hfirst⟩ :=
    insertionSort_desc_head (cands.map (fun m => (cpt_overlap cl lis m, m.composite_score, m)))
      hEne
  have hilen : i < cands.length := by simpa using hi
  have hwe : we = (fun m => (cpt_overlap cl lis m, m.composite_score, m))
      (cands.get ⟨i, hilen⟩) := by
    rw [← hget]
    simp [List.getElem_map]
  refine ⟨cands.get ⟨i, hilen⟩, ?_, i, hilen, rfl, ?_, ?_⟩
  · unfold select_best
    rw [if_neg (by omega : ¬ cands.length = 1), if_pos h2]
    simp only [hhead, Option.map_some]
    rw [hwe]
    rfl
  · intro c hc
    have hm := hmax _ (List.mem_map_of_mem _ hc)
    rw [hwe] at hm
    exact hm
  · intro j hj hjlt
    have hjm : j < (cands.map (fun m => (cpt_overlap cl lis m, m.composite_score, m))).length := by
      simpa using hj
    have hf := hfirst j hjm hjlt
    rw [hwe] at hf
    have hgm : (cands.map (fun m => (cpt_overlap cl lis m, m.composite_score, m))).get ⟨j, hjm⟩
        = (fun m => (cpt_overlap cl lis m, m.composite_score, m)) (cands.get ⟨j, hj⟩) := by
      simp [List.getElem_map]
    rw [hgm] at hf
    exact hf

/-- C2 witness: two candidates where the later-scanned one has the lower
composite but the larger CPT overlap. -/
theorem claim_c2_witness :
    1 < [cand2A, cand2B].length
    ∧ (∃ w, select_best [cand2A, cand2B] cl2Ex lis2Ex = some w
        ∧ ∃ i, ∃ hi : i < [cand2A, cand2B].length, [cand2A, cand2B].get ⟨i, hi⟩ = w
          ∧ (∀ c ∈ [cand2A, cand2B],
              keyLE (candKey cl2Ex lis2Ex c) (candKey cl2Ex lis2Ex w))
          ∧ (∀ j, ∀ hj : j < [cand2A, cand2B].length, j < i →
              keyLT (candKey cl2Ex lis2Ex ([cand2A, cand2B].get ⟨j, hj⟩))
                (candKey cl2Ex lis2Ex w))) :=
  ⟨by decide, claim_c2_tie_break [cand2A, cand2B] cl2Ex lis2Ex (by decide)⟩

/-! ### C6: single candidate short-circuit -/

/-- C6. A single-candidate set wins immediately: the selection returns that
candidate for every claim and line-items table, its value does not depend on
the claim's procedure codes or on the reference line items (no CPT overlap
is computed), and the per-file run classifies the claim as matched on it. -/
theorem claim_c6_single_candidate (c : CandidateMatch) :
    (∀ cl lis, select_best [c] cl lis = some c)
    ∧ (∀ cl lis cl2 lis2, select_best [c] cl lis = select_best [c] cl2 lis2)
    ∧ (∀ orders lis cl,
        (json_name_of cl).isEmpty = false → (dos_list_of cl).isEmpty = false →
        candidateScan (json_name_of cl) (dos_list_of cl) orders = .ok [c] →
        (process_one orders lis cl).classification = .matched c) := by
  refine ⟨fun cl lis => rfl, fun cl lis cl2 lis2 => rfl, ?_⟩
  intro orders lis cl h1 h2 hok
  simp only [process_one, h1, h2, Bool.or_self, Bool.false_eq_true, if_false, hok]
  rfl

/-- C6 witness: a concrete run with exactly one candidate. -/
theorem claim_c6_witness :
    (json_name_of cx6Claim).isEmpty = false
    ∧ (dos_list_of cx6Claim).isEmpty = false
    ∧ candidateScan (json_name_of cx6Claim) (dos_list_of cx6Claim) [ex1Row] = .ok [cx6Cand]
    ∧ (process_one [ex1Row] [] cx6Claim).classification = .matched cx6Cand :=
  ⟨by decide, by decide, by rfl,
   (claim_c6_single_candidate cx6Cand).2.2 [ex1Row] [] cx6Claim (by decide) (by decide)
     (by rfl)⟩

/-! ### C7: the unbound `results` name on the match branch -/

/-- C7. Whenever a best match is found, the match branch runs the write,
upload and move to the mapped prefix and then hits `results.append(...)`:
`results` is bound nowhere in the module, so a `NameError` is raised and
caught by the per-file handler, and the local-file removal and the
`processed_files` increment are skipped. -/
theorem claim_c7_name_error (orders : List OrderRow) (lis : List LineItem)
    (cl : ClaimData) (cands : List CandidateMatch) (best : CandidateMatch)
    (h1 : (json_name_of cl).isEmpty = false)
    (h2 : (dos_list_of cl).isEmpty = false)
    (hok : candidateScan (json_name_of cl) (dos_list_of cl) orders = .ok cands)
    (hsel : select_best cands cl lis = some best) :
    (process_one orders lis cl).exn = some .nameError
    ∧ (process_one orders lis cl).effects
        = [.download, .writeLocal, .uploadMapped, .moveToMapped]
    ∧ FileStep.removeLocal ∉ (process_one orders lis cl).effects
    ∧ (process_one orders lis cl).counted = false
    ∧ (process_one orders lis cl).classification = .matched best := by
  have hpo : process_one orders lis cl =
      { effects := [.download, .writeLocal, .uploadMapped, .moveToMapped]
        counted := false, exn := some .nameError, classification := .matched best } := by
    simp only [process_one, h1, h2, Bool.or_self, Bool.false_eq_true, if_false, hok, hsel]
  rw [hpo]
  exact ⟨rfl, rfl, by simp, rfl, rfl⟩

/-- C7 witness: the concrete matched run of the C6 scenario ends in the
swallowed `NameError` with the cleanup skipped. -/
theorem claim_c7_witness :
    (json_name_of cx6Claim).isEmpty = false
    ∧ (dos_list_of cx6Claim).isEmpty = false
    ∧ candidateScan (json_name_of cx6Claim) (dos_list_of cx6Claim) [ex1Row] = .ok [cx6Cand]
    ∧ select_best [cx6Cand] cx6Claim [] = some cx6Cand
    ∧ ((process_one [ex1Row] [] cx6Claim).exn = some .nameError
        ∧ (process_one [ex1Row] [] cx6Claim).effects
            = [.download, .writeLocal, .uploadMapped, .moveToMapped]
        ∧ FileStep.removeLocal ∉ (process_one [ex1Row] [] cx6Claim).effects
        ∧ (process_one [ex1Row] [] cx6Claim).counted = false
        ∧ (process_one [ex1Row] [] cx6Claim).classification = .matched cx6Cand) :=
  ⟨by decide, by decide, by rfl, by rfl,
   claim_c7_name_error [ex1Row] [] cx6Claim [cx6Cand] cx6Cand (by decide) (by decide)
     (by rfl) (by rfl)⟩

/-- C3 failing evaluation. `cx3Claim` has no successfully parsed service
date, so the claim says it is immediately `Unmatched{missing name or date}`
with no candidate search, regardless of the reference. In the code,
`dos_list` is `[None]`, which is non-empty, so the guard does not fire: with
an empty reference the claim is classified as an ordinary no-match (and the
cleanup path runs, so the file counter is incremented); with a name-matching
order in the reference the search raises `TypeError`. -/
theorem claim_c3_failing_eval :
    dos_list_of cx3Claim = [none]
    ∧ (json_name_of cx3Claim).isEmpty = false
    ∧ (process_one [] [] cx3Claim).classification = .unmatchedNoMatch
    ∧ (process_one [] [] cx3Claim).counted = true
    ∧ (process_one [cx3Row] [] cx3Claim).classification = .interrupted
    ∧ (process_one [cx3Row] [] cx3Claim).exn = some .typeError :=
  ⟨by rfl, by rfl, by rfl, by rfl, by rfl, by rfl⟩

/-- C4 failing evaluation. The claim says `dos_list` holds exactly the
successful parses and that a parse failure is never a fault. In the code the
failed parse of "02/30/2024" is retained as `None` next to the good date,
and matching against a name-matching order raises `TypeError`. -/
theorem claim_c4_failing_eval :
    parse_date (asStr ("02/30/2024")) = none
    ∧ dos_list_of cx4Claim = [none, some ⟨2024, 1, 10⟩]
    ∧ candidateScan (json_name_of cx4Claim) (dos_list_of cx4Claim) [ex1Row]
        = .error .typeError
    ∧ (process_one [ex1Row] [] cx4Claim).exn = some .typeError
    ∧ (process_one [ex1Row] [] cx4Claim).classification = .interrupted :=
  ⟨by rfl, by rfl, by rfl, by rfl, by rfl⟩

/-- C5 failing evaluation. The claim says a date-less order is silently
discarded and never causes a fault even when its name clears the threshold.
In the code the loader leaves `DOS_List = NaN` for O5; `not NaN` is falsy,
so the guard does not skip the row, and iterating over the float raises
`TypeError`, aborting the claim's processing. -/
theorem claim_c5_failing_eval :
    (load_orders_to_dataframe [cx5Raw] cx5Lis).map (fun r => r.dos_list) = [none]
    ∧ 90 ≤ composite_score_of (json_name_of cx5Claim) (normalize_text (asStr ("SMITH JOHN")))
    ∧ dos_list_of cx5Claim = [some ⟨2024, 1, 10⟩]
    ∧ candidateScan (json_name_of cx5Claim) (dos_list_of cx5Claim)
        (load_orders_to_dataframe [cx5Raw] cx5Lis) = .error .typeError
    ∧ (process_one (load_orders_to_dataframe [cx5Raw] cx5Lis) cx5Lis cx5Claim).exn
        = some .typeError :=
  ⟨by rfl, (composite_ge_90_iff _ _).mpr (by decide), by rfl, by rfl, by rfl⟩

